import Mathlib

set_option autoImplicit false

namespace FisScraper

/-!
Shallow embedding of the race-results ingestion pipeline of
`src/fis_scraper/scrapers/race_results_scraper.py` (class `RaceResultsScraper`).
Python strings are modelled as `List Char`, Python `float` values as exact
decimals (the pipeline only ever manipulates finite decimal literals, see
`Decimal`), dates as `Int`
day numbers ordered by `≤`, and the relational store as explicit record lists
threaded through the functions.  HTML navigation (BeautifulSoup) is abstracted
into record fields holding exactly the text payloads that the fixed selectors
of the source extract; everything downstream of those selectors is translated
line by line from the source.
-/

/-- Characters of a Python string. -/
abbrev Str := List Char

/-- The apostrophe character (U+0027). -/
def apos : Char := Char.ofNat 39

/-- Python `str.lower()` (ASCII case folding, which is all the source needs). -/
def strLower (s : Str) : Str := s.map Char.toLower

/-- Python `str.upper()`. -/
def strUpper (s : Str) : Str := s.map Char.toUpper

/-- `leadsWith needle hay`: `hay` starts with `needle`. -/
def leadsWith : Str → Str → Bool
  | [], _ => true
  | _ :: _, [] => false
  | a :: as, b :: bs => a == b && leadsWith as bs

/-- Python substring test `needle in hay`. -/
def hasSub (needle : Str) : Str → Bool
  | [] => leadsWith needle []
  | c :: rest => leadsWith needle (c :: rest) || hasSub needle rest

/-- Numeric value of a run of decimal digits. -/
def digitsVal (s : Str) : Nat := s.foldl (fun n c => n * 10 + (c.toNat - 48)) 0

/-- Python `str.isdigit()` restricted to ASCII digits (all inputs the source
meets are ASCII). -/
def allDigits (s : Str) : Bool := !s.isEmpty && s.all Char.isDigit

/-- Python `str.strip()`: drop leading and trailing whitespace. -/
def stripWs (s : Str) : Str :=
  ((s.dropWhile Char.isWhitespace).reverse.dropWhile Char.isWhitespace).reverse

/-- An exact decimal number `num / 10 ^ exp`.  The scraper only ever holds
finite decimal literals in its Python floats, so this representation is exact;
it is chosen over `ℚ` so that every concrete run of the model reduces inside
the kernel.  Representatives are not normalized — every theorem compares the
deterministic representative the parsing functions compute. -/
structure Decimal where
  num : Int
  exp : Nat
  deriving DecidableEq

/-- Powers of ten, by structural recursion so the kernel evaluates them. -/
def pow10 : Nat → Int
  | 0 => 1
  | k + 1 => 10 * pow10 k

/-- The rational value of a `Decimal`, used to state what a representative
means. -/
def Decimal.toRat (d : Decimal) : ℚ := (d.num : ℚ) / (10 : ℚ) ^ d.exp

/-- Exact decimal addition: `a/10^e₁ + b/10^e₂ = (a·10^e₂ + b·10^e₁)/10^(e₁+e₂)`. -/
def Decimal.add (a b : Decimal) : Decimal :=
  ⟨a.num * pow10 b.exp + b.num * pow10 a.exp, a.exp + b.exp⟩

/-- Multiplication by a natural constant (the `* 60` of `_parse_time`). -/
def Decimal.mulNat (a : Decimal) (k : Nat) : Decimal := ⟨a.num * k, a.exp⟩

/-- Negation. -/
def Decimal.neg (a : Decimal) : Decimal := ⟨-a.num, a.exp⟩

/-- Exponent suffix of a Python float literal: empty, or `e`/`E`, an optional
sign and a nonempty digit run reaching the end of the string. -/
def expPart (mant : Decimal) : Str → Option Decimal
  | [] => some mant
  | c :: rest =>
    if c == 'e' || c == 'E' then
      let (eneg, r) :=
        match rest with
        | '+' :: r' => (false, r')
        | '-' :: r' => (true, r')
        | r' => (false, r')
      let ds := r.takeWhile Char.isDigit
      let tail := r.dropWhile Char.isDigit
      if ds.isEmpty || !tail.isEmpty then none
      else some (if eneg then ⟨mant.num, mant.exp + digitsVal ds⟩
                 else ⟨mant.num * pow10 (digitsVal ds), mant.exp⟩)
    else none

/-- Model of CPython `float(s)` on the finite decimal literals the scraper
meets: optional surrounding whitespace, optional sign, an integer and/or
fractional digit part around an optional dot, and an optional exponent.
The non-finite spellings (`inf`, `nan`) and digit-group underscores accepted
by CPython are outside the model's numeric domain and are rejected. -/
def pyFloat? (s : Str) : Option Decimal :=
  let t := stripWs s
  let (pos, t1) :=
    match t with
    | '+' :: r => (true, r)
    | '-' :: r => (false, r)
    | r => (true, r)
  let ip := t1.takeWhile Char.isDigit
  let t2 := t1.dropWhile Char.isDigit
  let core : Option (Decimal × Str) :=
    match t2 with
    | '.' :: r =>
      let fp := r.takeWhile Char.isDigit
      let t3 := r.dropWhile Char.isDigit
      if ip.isEmpty && fp.isEmpty then none
      else some (⟨digitsVal ip * pow10 fp.length + digitsVal fp, fp.length⟩, t3)
    | _ => if ip.isEmpty then none else some (⟨digitsVal ip, 0⟩, t2)
  match core with
  | none => none
  | some (m, rest) => (expPart m rest).map (fun d => if pos then d else d.neg)

/-- `RaceResultsScraper._parse_time`: `''` and `'-'` map to `None`; a string
with a colon is split on `:` (Python tuple unpacking demands exactly two
pieces, else the `ValueError` is caught), both pieces go through `float` and
combine as `minutes * 60 + seconds`; otherwise the whole string goes through
`float`.  Any `ValueError` yields `None`.  `combine_times` is the
two-`float` combination, `None` when either piece fails. -/
def combine_times : Option Decimal → Option Decimal → Option Decimal
  | some a, some b => some ((a.mulNat 60).add b)
  | _, _ => none

/-- The colon branch: Python `minutes, seconds = time_str.split(':')` demands
exactly two pieces (otherwise the raised `ValueError` is caught), then
`float(minutes) * 60 + float(seconds)`. -/
def two_piece : List Str → Option Decimal
  | [m, sec] => combine_times (pyFloat? m) (pyFloat? sec)
  | _ => none

def parse_time (s : Str) : Option Decimal :=
  if s.isEmpty || s == ['-'] then none
  else if s.contains ':' then two_piece (s.splitOn ':')
  else pyFloat? s

/-- `digits+ '.' digits+`, the literal reading of the spec's `SS.ss` shape. -/
def secondsForm (s : Str) : Bool :=
  let a := s.takeWhile Char.isDigit
  match s.dropWhile Char.isDigit with
  | '.' :: b => !a.isEmpty && !b.isEmpty && b.all Char.isDigit
  | _ => false

/-- The claim's time shapes: `M:SS.ss` or `SS.ss`. -/
def claimTimeForm (s : Str) : Bool :=
  match s.splitOn ':' with
  | [x] => secondsForm x
  | [m, sec] => allDigits m && secondsForm sec
  | _ => false

/-- Whether both pieces of a two-piece colon split go through `float`. -/
def two_piece_ok : List Str → Bool
  | [m, sec] => (pyFloat? m).isSome && (pyFloat? sec).isSome
  | _ => false

/-- The inputs on which `_parse_time` commits to a value: nonempty, not
`'-'`, and the optional single colon split leaves pieces `float` accepts. -/
def timeAccepted (s : Str) : Bool :=
  !s.isEmpty && s != ['-'] &&
    (if s.contains ':' then two_piece_ok (s.splitOn ':') else (pyFloat? s).isSome)

/-- The run suffix of `RaceResultsScraper._get_result_status`: `"2"` when the
lowercased heading contains `2nd run`, else `"1"` when it contains `1st run`,
else empty. -/
def runSuffix (t : Str) : Str :=
  if hasSub "2nd run".toList t then ['2']
  else if hasSub "1st run".toList t then ['1']
  else []

/-- `RaceResultsScraper._get_result_status`: lowercase the heading, read a run
suffix (`2nd run` before `1st run`), then the first matching outcome keyword
in source order. -/
def get_result_status (text : Str) : Option Str :=
  if hasSub "disqualified".toList (strLower text) then
    some ("DSQ".toList ++ runSuffix (strLower text))
  else if hasSub "did not finish".toList (strLower text) then
    some ("DNF".toList ++ runSuffix (strLower text))
  else if hasSub "did not start".toList (strLower text) then
    some ("DNS".toList ++ runSuffix (strLower text))
  else if hasSub "did not qualify".toList (strLower text) then
    some ("DNQ".toList ++ runSuffix (strLower text))
  else if hasSub "not permitted to start".toList (strLower text) then
    some ("NPS".toList ++ runSuffix (strLower text))
  else none

/-- Run index as the claim words it: 2 when `2nd run` occurs, 1 when `1st run`
occurs, none otherwise.  (On a heading carrying both phrases the claim's
parenthetical gives no priority; the source resolves to run 2, and this spec
reading follows that resolution.) -/
def runIndexSpec (t : Str) : Option Nat :=
  if hasSub "2nd run".toList t then some 2
  else if hasSub "1st run".toList t then some 1
  else none

/-- Outcome keyword table as the claim words it. -/
def outcomeCodeSpec (t : Str) : Option Str :=
  if hasSub "disqualified".toList t then some "DSQ".toList
  else if hasSub "did not finish".toList t then some "DNF".toList
  else if hasSub "did not start".toList t then some "DNS".toList
  else if hasSub "did not qualify".toList t then some "DNQ".toList
  else if hasSub "not permitted to start".toList t then some "NPS".toList
  else none

/-- The suffix the claim attaches for a run index. -/
def runIndexSuffix (ri : Option Nat) : Str :=
  match ri with
  | some 1 => ['1']
  | some 2 => ['2']
  | _ => []

/-- Status classifier as described by the claim: lowercase, keyword code,
run-index suffix when present, `none` when no keyword is recognized. -/
def spec_result_status (text : Str) : Option Str :=
  (outcomeCodeSpec (strLower text)).map fun c =>
    c ++ runIndexSuffix (runIndexSpec (strLower text))

/-- The two genders of `database/models.py`.  (`_parse_gender`'s `mixed`
branch names a `Gender.A` member that the models module does not define and
would raise `AttributeError`; no claim reaches it and the model maps it to
`none`.) -/
inductive Gender
  | M
  | F
  deriving DecidableEq

/-- The five alpine disciplines of `database/models.py`. -/
inductive Discipline
  | SL
  | GS
  | SG
  | DH
  | AC
  deriving DecidableEq

/-- `RaceResultsScraper._parse_gender`: empty text gives `None`; then a
lowercased containment chain `women` / `men`. -/
def parse_gender (s : Str) : Option Gender :=
  if s.isEmpty then none
  else if hasSub "women".toList (strLower s) then some Gender.F
  else if hasSub "men".toList (strLower s) then some Gender.M
  else none

/-- Worker for `replaceAll`, structurally recursive on fuel so that the
kernel can evaluate it; the fuel only ever decreases as fast as the string,
so with `fuel = s.length` the zero-fuel clause is unreachable. -/
def replaceAllGo (pat : Str) : Nat → Str → Str
  | _, [] => []
  | 0, s => s
  | fuel + 1, c :: rest =>
    if !pat.isEmpty && leadsWith pat (c :: rest) then
      replaceAllGo pat fuel (rest.drop (pat.length - 1))
    else c :: replaceAllGo pat fuel rest

/-- Python `str.replace(pat, '')` for a nonempty pattern: delete every
(left-to-right, non-overlapping) occurrence. -/
def replaceAll (pat : Str) (s : Str) : Str := replaceAllGo pat s.length s

/-- The fixed discipline lookup table of `_parse_discipline`, keyed by both
2-letter codes and full names (uppercased). -/
def disciplineTable : List (Str × Discipline) :=
  [("SL".toList, Discipline.SL), ("GS".toList, Discipline.GS),
   ("SG".toList, Discipline.SG), ("DH".toList, Discipline.DH),
   ("AC".toList, Discipline.AC),
   ("SLALOM".toList, Discipline.SL), ("GIANT SLALOM".toList, Discipline.GS),
   ("SUPER-G".toList, Discipline.SG), ("DOWNHILL".toList, Discipline.DH),
   ("ALPINE COMBINED".toList, Discipline.AC), ("SUPER G".toList, Discipline.SG)]

/-- `RaceResultsScraper._parse_discipline`: empty gives `None`; strip and
uppercase; when `TRAINING` occurs, delete every `' TRAINING'` and strip
again; finally look the text up in the fixed table (`None` plus a logged
error on a miss). -/
def parse_discipline (s : Str) : Option Discipline :=
  if s.isEmpty then none
  else
    let u := strUpper (stripWs s)
    let u2 := if hasSub "TRAINING".toList u then stripWs (replaceAll " TRAINING".toList u) else u
    (disciplineTable.find? (fun p => p.1 == u2)).map (·.2)

/-- `"Men's"` (built without a literal apostrophe). -/
def mensStr : Str := "Men".toList ++ [apos, 's']

/-- `"Women's"`. -/
def womensStr : Str := "Women".toList ++ [apos, 's']

/-- Tail matcher for the header regex `((?:Men's|Women's))\s+(.+)`: after the
gender word, `\s+` takes a maximal whitespace run that still leaves one
non-newline character for the greedy `(.+)`, which then runs to the end of
the line.  Returns group 2. -/
def kindTailMatch (tail : Str) : Option Str :=
  let w := (tail.takeWhile Char.isWhitespace).length
  if w == 0 then none
  else if w < tail.length then some ((tail.drop w).takeWhile (fun c => c != '\n'))
  else
    match (List.range w).reverse.find?
        (fun k => 1 ≤ k && k < tail.length && ((tail.drop k).headD ' ') != '\n') with
    | some k => some ((tail.drop k).takeWhile (fun c => c != '\n'))
    | none => none

/-- `re.search` for `((?:Men's|Women's))\s+(.+)`: leftmost position where a
gender word followed by `kindTailMatch` succeeds; returns (group 1, group 2). -/
def findKindMatch : Str → Option (Str × Str)
  | [] => none
  | c :: rest =>
    if leadsWith mensStr (c :: rest) then
      match kindTailMatch ((c :: rest).drop mensStr.length) with
      | some g2 => some (mensStr, g2)
      | none => findKindMatch rest
    else if leadsWith womensStr (c :: rest) then
      match kindTailMatch ((c :: rest).drop womensStr.length) with
      | some g2 => some (womensStr, g2)
      | none => findKindMatch rest
    else findKindMatch rest

/-- Lines 410–420 of `_parse_fis_race_header`: the `event-header__kind` text
is matched against the regex; on a match, group 1 (stripped) feeds
`_parse_gender` and group 2 (stripped) feeds `_parse_discipline`; on no
match neither key is set, so both read back as `None`. -/
def parse_header_kind (disciplineText : Str) : Option Gender × Option Discipline :=
  match findKindMatch disciplineText with
  | none => (none, none)
  | some (g, d) => (parse_gender (stripWs g), parse_discipline (stripWs d))

/-- `re.search(key + r'(\d+)', s)`: leftmost occurrence of `key` followed by
at least one digit; the value of the maximal digit run there. -/
def searchKeyNat (key : Str) : Str → Option Nat
  | [] => none
  | c :: rest =>
    if leadsWith key (c :: rest) then
      if (((c :: rest).drop key.length).takeWhile Char.isDigit).isEmpty then
        searchKeyNat key rest
      else some (digitsVal (((c :: rest).drop key.length).takeWhile Char.isDigit))
    else searchKeyNat key rest

/-- Whether `key` followed by at least one digit occurs anywhere in `s`
(stated independently of `searchKeyNat` for the amended claim). -/
def hasKeyDigitSub (key : Str) : Str → Bool
  | [] => false
  | c :: rest =>
    (leadsWith key (c :: rest) &&
      !((((c :: rest).drop key.length).takeWhile Char.isDigit).isEmpty)) ||
    hasKeyDigitSub key rest

/-- `RaceResultsScraper._parse_race_id_from_link`: `re.search(r'raceid=(\d+)',
link)`, `int` of group 1 on a match, `None` otherwise (despite the declared
return type `int`). -/
def parse_race_id_from_link (link : Str) : Option Nat :=
  searchKeyNat "raceid=".toList link

/-- `RaceResultsScraper.find_races_by_event`, downstream of the HTTP fetch
and anchor selection (abstracted to the list of href strings of the matched
anchors): each href goes through `_parse_race_id_from_link`. -/
def find_races_by_event (hrefs : List Str) : List (Option Nat) :=
  hrefs.map parse_race_id_from_link

/-- The query-string portion of a URL: after the first `?`, before any `#`. -/
def queryString (url : Str) : Str :=
  ((url.dropWhile (fun c => c != '?')).drop 1).takeWhile (fun c => c != '#')

/-- The parameter names of a URL's query string. -/
def paramNames (url : Str) : List Str :=
  ((queryString url).splitOn '&').map (fun kv => kv.takeWhile (fun c => c != '='))

/-- Whether the URL carries a query parameter literally named `raceid` — the
claim's reading of `_parse_race_id_from_link`'s trigger. -/
def hasRaceidParam (url : Str) : Bool :=
  (paramNames url).contains "raceid".toList

/-- The text payloads that `_parse_fis_table_row`'s fixed selectors extract
from one `<a class="table-row">`: presence of the `g-row container` and
`g-row justify-sb` wrappers, the first inner div's text (rank slot), the
`div.justify-left.bold` texts (name), the `span.country__name-short` text,
the row's `href`, the `div.justify-right.bold.hidden-xs` texts (times), and
the points div's text. -/
structure RowHtml where
  hasContainer : Bool
  hasInnerRow : Bool
  rankText : Option Str
  nameTexts : List Str
  nationText : Option Str
  href : Str
  timeTexts : List Str
  pointsText : Option Str
  deriving DecidableEq

/-- The result dictionary `_parse_fis_table_row` builds. -/
structure RaceRow where
  rank : Option Nat
  athlete_name : Option Str
  athlete_fis_db_id : Option Nat
  fis_db_id : Nat
  nation : Option Str
  run1_time : Option Decimal
  run2_time : Option Decimal
  racer_time : Option Decimal
  points : Option Decimal
  result : Option Str
  deriving DecidableEq

/-- `RaceResultsScraper._parse_fis_table_row`: `None` when the `g-row
container` or `g-row justify-sb` wrapper is missing; otherwise rank from the
first inner div when its text is all digits, name from the first bold
left-justified div, athlete id from `competitorid=(\d+)` in the href, and
run 1 / run 2 / total times from the first, second and last time div
(`_parse_time` each); points only for rows without a non-finish status, and
only when `_is_float` accepts the text (`_is_float` is `float()` succeeding,
i.e. `pyFloat?` committing). -/
def mkRaceRow (row : RowHtml) (raceId : Nat) (status : Option Str) : RaceRow :=
  let rank :=
    match row.rankText with
    | some t => if allDigits t then some (digitsVal t) else none
    | none => none
  let times :=
    match row.timeTexts with
    | [] => (none, none, none)
    | t0 :: rest =>
      (parse_time t0,
       (match rest.head? with
        | some t1 => parse_time t1
        | none => none),
       parse_time ((t0 :: rest).getLastD []))
  let pts :=
    if status.isNone then
      match row.pointsText with
      | some t => if (pyFloat? t).isSome then pyFloat? t else none
      | none => none
    else none
  ⟨rank, row.nameTexts.head?, searchKeyNat "competitorid=".toList row.href,
   raceId, row.nationText, times.1, times.2.1, times.2.2, pts, status⟩

/-- `_parse_fis_table_row` proper: `None` when the `g-row container` or
`g-row justify-sb` wrapper is missing, else the dictionary above. -/
def parse_fis_table_row (row : RowHtml) (raceId : Nat) (status : Option Str) :
    Option RaceRow :=
  if !row.hasContainer then none
  else if !row.hasInnerRow then none
  else some (mkRaceRow row raceId status)

/-- One non-finisher table: the stripped text of the `div.table__body`'s
previous sibling (`none` when the sibling is missing, in which case the
source raises `AttributeError`) and the rows inside it. -/
structure PageSection where
  heading : Option Str
  rows : List RowHtml
  deriving DecidableEq

/-- `RaceResultsScraper._get_non_finishers` over the non-finisher
`table__body` divs (the `events-info-results` div is skipped by the source
and excluded from the input): classify each section by its heading via
`_get_result_status` and parse its rows with that status; `none` models the
uncaught `AttributeError` on a section with no previous sibling. -/
def get_non_finishers (sections : List PageSection) (raceId : Nat) :
    Option (List RaceRow) :=
  match sections with
  | [] => some []
  | s :: rest =>
    match s.heading with
    | none => none
    | some h =>
      (get_non_finishers rest raceId).map
        (fun tl =>
          s.rows.filterMap (fun r => parse_fis_table_row r raceId (get_result_status h)) ++ tl)

/-- `RaceResultsScraper._calculate_total_starters`: start from `len(results)`
and subtract one per row whose status is exactly `DNS1`. -/
def calculate_total_starters (results : List RaceRow) : Nat :=
  results.foldl
    (fun s r => if r.result == some "DNS1".toList then s - 1 else s)
    results.length

/-- A stored points list (`PointsList` model): its validity window. -/
structure PLRec where
  valid_from : Int
  valid_to : Int
  listid : Nat
  deriving DecidableEq

/-- One entry of the external points-list catalog
(`PointsListScraper.get_points_lists`): the window fields can be absent. -/
structure CatEntry where
  valid_from : Option Int
  valid_to : Option Int
  entryid : Nat
  deriving DecidableEq

/-- `RaceResultsScraper._get_points_list_for_date`: first stored list whose
window contains the date. -/
def get_points_list_for_date (store : List PLRec) (d : Int) : Option PLRec :=
  store.find? (fun pl => decide (pl.valid_from ≤ d) && decide (d ≤ pl.valid_to))

/-- The filter of `_ensure_points_list_for_date`: both window fields present
(Python truthiness) and `valid_from <= race_date <= valid_to`. -/
def coversDate (e : CatEntry) (d : Int) : Bool :=
  match e.valid_from, e.valid_to with
  | some a, some b => decide (a ≤ d) && decide (d ≤ b)
  | _, _ => false

/-- Observable outcome of `_ensure_points_list_for_date`: the returned list
plus how often the store was queried, the catalog requested, and ingestion
triggered, and with which entry. -/
structure EnsureOut where
  result : Option PLRec
  storeQueries : Nat
  catalogRequests : Nat
  ingestCalls : Nat
  ingestedEntry : Option CatEntry
  deriving DecidableEq

/-- `RaceResultsScraper._ensure_points_list_for_date`: query the store; on a
hit return it.  Otherwise request the catalog once and filter to entries
covering the date; none → return `None`.  Else ingest the first covering
entry (`ingest` yields the collaborator's success flag and the store state
it leaves behind); on success re-query the store and return that, on failure
return `None` without re-querying.  `ensure_ingested` is the post-ingestion
dispatch on the collaborator's outcome. -/
def ensure_ingested (d : Int) (e : CatEntry) : Bool × List PLRec → EnsureOut
  | (true, store2) => ⟨get_points_list_for_date store2 d, 2, 1, 1, some e⟩
  | (false, _) => ⟨none, 1, 1, 1, some e⟩

/-- The no-store-hit tail: no covering entry → absent without ingesting,
else ingest the first covering entry and continue per `ensure_ingested`. -/
def ensure_filtered (d : Int) (ingest : CatEntry → Bool × List PLRec) :
    List CatEntry → EnsureOut
  | [] => ⟨none, 1, 1, 0, none⟩
  | e :: _ => ensure_ingested d e (ingest e)

def ensure_points_list_for_date (store : List PLRec) (catalog : List CatEntry)
    (ingest : CatEntry → Bool × List PLRec) (d : Int) : EnsureOut :=
  match get_points_list_for_date store d with
  | some pl => ⟨some pl, 1, 0, 0, none⟩
  | none => ensure_filtered d ingest (catalog.filter (fun e => coversDate e d))

/-- The header fields of `scrape_race_results` that gate the pipeline
(`race_info['fis_db_id'|'race_date'|'discipline']`). -/
structure HeaderInfo where
  fis_db_id : Nat
  race_date : Option Int
  discipline : Option Discipline
  deriving DecidableEq

/-- The results area of a race page: the rows of `div#events-info-results`
and the sibling non-finisher tables. -/
structure PageBody where
  finisherRows : List RowHtml
  sections : List PageSection
  deriving DecidableEq

/-- What `scrape_race_results` produces besides the header fields, plus the
dependency-resolver call counters. -/
structure ScrapeOut where
  results : List RaceRow
  total_finishers : Option Nat
  total_starters : Option Nat
  win_time : Option Decimal
  penalty : Option Decimal
  storeQueries : Nat
  catalogRequests : Nat
  ingestCalls : Nat
  deriving DecidableEq

/-- The row-parsing and statistics phase of `scrape_race_results` (lines
199–209): parse the finisher rows; when at least one parses, read winner info
from `rows[0]` (a `None` there subscripts `None` — uncaught `TypeError`,
modelled as `none`), set `total_finishers = len(results)`, extend with the
non-finishers, and compute `total_starters` over the extended list.
`assemble_from` handles the phase after the finisher rows are parsed: no
parsed row → no statistics; a parsed list whose first raw row fails to parse
crashes (`none`); otherwise build the extended list and the statistics. -/
def assemble_from (raceId : Nat) (body : PageBody) :
    Option RaceRow → List RaceRow →
    Option (List RaceRow × Option Nat × Option Nat × Option Decimal × Option Decimal)
  | _, [] => some ([], none, none, none, none)
  | none, _ :: _ => none
  | some w, f0 :: ftail =>
    (get_non_finishers body.sections raceId).map
      (fun nonFin =>
        ((f0 :: ftail) ++ nonFin, some (f0 :: ftail).length,
         some (calculate_total_starters ((f0 :: ftail) ++ nonFin)),
         w.racer_time, w.points))

/-- Dispatch of the statistics phase on the raw finisher rows: with no rows
the parse loop finds nothing and no statistics are set; with rows, the parsed
list and the would-be winner row feed `assemble_from`. -/
def assemble_rows (raceId : Nat) (body : PageBody) :
    List RowHtml →
    Option (List RaceRow × Option Nat × Option Nat × Option Decimal × Option Decimal)
  | [] => some ([], none, none, none, none)
  | r0 :: rtail =>
    assemble_from raceId body (parse_fis_table_row r0 raceId none)
      ((r0 :: rtail).filterMap (fun r => parse_fis_table_row r raceId none))

def assemble_results (raceId : Nat) (body : PageBody) :
    Option (List RaceRow × Option Nat × Option Nat × Option Decimal × Option Decimal) :=
  assemble_rows raceId body body.finisherRows

/-- `RaceResultsScraper.scrape_race_results` downstream of the fetch: abort
with empty results when the discipline is unresolved or the results div is
missing (`page = none`); when the header carries a date, run the dependency
resolver and abort (keeping its counters) when it yields nothing; otherwise —
and directly, with zero resolver activity, when the header has no date — run
the row/statistics phase.  `none` models an uncaught exception in that
phase.  `scrape_with_list` is the points-gated tail (lines 194–209): abort
with the resolver's counters when it yields nothing, else run the
row/statistics phase; `scrape_page` dispatches on the header date — with a
date the resolver gates the row phase, without one the row phase runs with
zero resolver activity. -/
def scrape_with_list (eOut : EnsureOut) (raceId : Nat) (body : PageBody) :
    Option ScrapeOut :=
  if eOut.result.isNone then
    some ⟨[], none, none, none, none,
          eOut.storeQueries, eOut.catalogRequests, eOut.ingestCalls⟩
  else
    (assemble_results raceId body).map
      (fun o => ⟨o.1, o.2.1, o.2.2.1, o.2.2.2.1, o.2.2.2.2,
                 eOut.storeQueries, eOut.catalogRequests, eOut.ingestCalls⟩)

def scrape_page (info : HeaderInfo) (store : List PLRec) (catalog : List CatEntry)
    (ingest : CatEntry → Bool × List PLRec) (body : PageBody) :
    Option Int → Option ScrapeOut
  | some d =>
    scrape_with_list (ensure_points_list_for_date store catalog ingest d)
      info.fis_db_id body
  | none =>
    (assemble_results info.fis_db_id body).map
      (fun o => ⟨o.1, o.2.1, o.2.2.1, o.2.2.2.1, o.2.2.2.2, 0, 0, 0⟩)

def scrape_core (info : HeaderInfo) (page : Option PageBody) (store : List PLRec)
    (catalog : List CatEntry) (ingest : CatEntry → Bool × List PLRec) :
    Option ScrapeOut :=
  if info.discipline.isNone then some ⟨[], none, none, none, none, 0, 0, 0⟩
  else
    match page with
    | none => some ⟨[], none, none, none, none, 0, 0, 0⟩
    | some body => scrape_page info store catalog ingest body info.race_date

/-- A stored race (`Race` model): internal id, the identity triple, and its
persisted results. -/
structure RaceRec where
  rid : Nat
  fis_db_id : Nat
  race_date : Int
  discipline : Discipline
  results : List RaceRow
  deriving DecidableEq

/-- The relational store as the persistence functions see it: races with
their results, the set of athlete `fis_db_id`s the points-list ingestion has
created, and the next internal race id. -/
structure DbState where
  races : List RaceRec
  athletes : List Nat
  nextId : Nat
  deriving DecidableEq

/-- The identity-triple filter of `_get_or_create_race`'s `filter_by`. -/
def raceKey (fid : Nat) (d : Int) (disc : Discipline) (r : RaceRec) : Bool :=
  r.fis_db_id == fid && r.race_date == d && r.discipline == disc

/-- `RaceResultsScraper._get_or_create_race`: `None` unless `fis_db_id`
(nonzero — Python truthiness), `race_date` and `discipline` are all present;
look up by the identity triple and return the hit unmodified; otherwise
create an empty-results race (`createOk` models the caught flush failure
that also yields `None`).  `goc_lookup` dispatches on the identity-triple
lookup: a hit is returned with the store untouched, a miss creates (when the
flush succeeds) a fresh race with no results. -/
def goc_lookup (st : DbState) (fid : Nat) (d : Int) (disc : Discipline)
    (createOk : Bool) : Option RaceRec → Option RaceRec × DbState
  | some r => (some r, st)
  | none =>
    if createOk then
      (some ⟨st.nextId, fid, d, disc, []⟩,
       ⟨st.races ++ [⟨st.nextId, fid, d, disc, []⟩], st.athletes, st.nextId + 1⟩)
    else (none, st)

/-- The required-fields gate of `_get_or_create_race` (Python truthiness:
a zero `fis_db_id` also fails `all([...])`). -/
def goc_fields (st : DbState) (fid : Nat) (createOk : Bool) :
    Option Int → Option Discipline → Option RaceRec × DbState
  | some d, some disc =>
    if fid == 0 then (none, st)
    else goc_lookup st fid d disc createOk (st.races.find? (raceKey fid d disc))
  | _, _ => (none, st)

def get_or_create_race (st : DbState) (info : HeaderInfo) (createOk : Bool) :
    Option RaceRec × DbState :=
  goc_fields st info.fis_db_id createOk info.race_date info.discipline

/-- The per-result loop of `_save_race_results`.  `errO i` is the caught
exception at iteration `i` (its handler rolls back, emptying the pending
inserts, and the loop continues); a result whose athlete id is absent from
the store is skipped-and-logged; otherwise the result is added to the
pending inserts and `saved_count` incremented.  (Athletes are keyed by their
present `fis_db_id`s; a result dictionary with no athlete id matches no
stored athlete in this model — the ORM corner where `filter_by(fis_db_id=
None)` could match an athlete row with a NULL id is outside it.) -/
def save_loop (athletes : List Nat) (errO : Nat → Bool) :
    List RaceRow → Nat → List RaceRow → Nat → List RaceRow × Nat
  | [], _, pending, saved => (pending, saved)
  | r :: rest, i, pending, saved =>
    if errO i then save_loop athletes errO rest (i + 1) [] saved
    else
      match r.athlete_fis_db_id with
      | none => save_loop athletes errO rest (i + 1) pending saved
      | some a =>
        if athletes.contains a then
          save_loop athletes errO rest (i + 1) (pending ++ [r]) (saved + 1)
        else save_loop athletes errO rest (i + 1) pending saved

/-- `RaceResultsScraper._save_race_results`: `0` for an empty batch; run the
per-result loop; then commit — on success the pending inserts become this
race's persisted results and `saved_count` is returned, on a commit failure
everything is rolled back, the store is unchanged and `0` is returned. -/
def save_race_results (st : DbState) (race : RaceRec) (results : List RaceRow)
    (errO : Nat → Bool) (commitOk : Bool) : Int × DbState :=
  if results.isEmpty then (0, st)
  else if commitOk then
    (((save_loop st.athletes errO results 0 [] 0).2 : Int),
     ⟨st.races.map
        (fun x =>
          if x.rid == race.rid then
            {x with results := x.results ++ (save_loop st.athletes errO results 0 [] 0).1}
          else x),
      st.athletes, st.nextId⟩)
  else (0, st)

/-- `RaceResultsScraper.record_race`: resolve/create the race (`-1` when that
fails); when it already has at least one persisted result return `0` (both
the equal-count "already ingested" log and the unequal-count conflict log
land here, with no store change); with results and a fresh race, save them;
with no results just return `0`. -/
def record_race (st : DbState) (info : HeaderInfo) (results : List RaceRow)
    (createOk : Bool) (errO : Nat → Bool) (commitOk : Bool) : Int × DbState :=
  match get_or_create_race st info createOk with
  | (some r, st1) =>
    if r.results.length > 0 then (0, st1)
    else if !results.isEmpty then save_race_results st1 r results errO commitOk
    else (0, st1)
  | (none, st1) => (-1, st1)

/-! ## Concrete inputs used by the claim witnesses and counterexamples -/

/-- The catalog of the C5 counterexample: one entry covering the date. -/
def c5catalog : List CatEntry := [⟨some 0, some 10, 1⟩]

/-- The ingestion collaborator of the C5 counterexample: it reports failure
while nonetheless leaving a covering list in the store (the collaborator is
external and fully delegated to; a partially committed ingestion run behaves
exactly like this). -/
def c5ingest : CatEntry → Bool × List PLRec := fun _ => (false, [⟨0, 10, 5⟩])

/-- The finisher row of the C3 witness page. -/
def c3finRow : RowHtml :=
  ⟨true, true, some "1".toList, [], none, "r?competitorid=11".toList,
   ["52.10".toList], some "0.00".toList⟩

/-- The non-finisher row of the C3 witness page. -/
def c3nfRow : RowHtml :=
  ⟨true, true, none, [], none, "r?competitorid=12".toList, [], none⟩

/-- The C3 witness page: one finisher, one DNS-before-run-1 section. -/
def c3body : PageBody :=
  ⟨[c3finRow], [⟨some "Did Not Start 1st Run".toList, [c3nfRow]⟩]⟩

/-- The scrape outcome of the C3 witness page. -/
def c3out : ScrapeOut :=
  ⟨[⟨some 1, none, some 11, 9, none, some ⟨5210, 2⟩, none, some ⟨5210, 2⟩,
     some ⟨0, 2⟩, none⟩,
    ⟨none, none, some 12, 9, none, none, none, none, none, some "DNS1".toList⟩],
   some 1, some 1, some ⟨5210, 2⟩, some ⟨0, 2⟩, 0, 0, 0⟩

/-- The finisher-table row of the C4 counterexample: a well-formed row whose
total-time text is the dash placeholder. -/
def c4row : RowHtml :=
  ⟨true, true, some "2".toList, [], none, "x?competitorid=43".toList,
   ["-".toList], none⟩

/-- The scrape outcome of the C4 counterexample page. -/
def c4out : ScrapeOut :=
  ⟨[⟨some 2, none, some 43, 7, none, none, none, none, none, none⟩],
   some 1, some 1, none, none, 0, 0, 0⟩

/-- The finisher row of the C4 witness page. -/
def c4wrow : RowHtml :=
  ⟨true, true, some "1".toList, [], none, "r?competitorid=21".toList,
   ["52.10".toList], some "0.00".toList⟩

/-- The C4 witness page. -/
def c4wbody : PageBody := ⟨[c4wrow], []⟩

/-- The scrape outcome of the C4 witness page. -/
def c4wout : ScrapeOut :=
  ⟨[⟨some 1, none, some 21, 8, none, some ⟨5210, 2⟩, none, some ⟨5210, 2⟩,
     some ⟨0, 2⟩, none⟩],
   some 1, some 1, some ⟨5210, 2⟩, some ⟨0, 2⟩, 0, 0, 0⟩

/-- The finisher row of the C9 witness page. -/
def c9row : RowHtml :=
  ⟨true, true, some "1".toList, [], none, "r?competitorid=31".toList,
   ["52.10".toList], some "0.00".toList⟩

/-- The C9 witness page. -/
def c9body : PageBody := ⟨[c9row], []⟩

/-- The scrape outcome of the C9 witness page. -/
def c9out : ScrapeOut :=
  ⟨[⟨some 1, none, some 31, 5, none, some ⟨5210, 2⟩, none, some ⟨5210, 2⟩,
     some ⟨0, 2⟩, none⟩],
   some 1, some 1, some ⟨5210, 2⟩, some ⟨0, 2⟩, 0, 0, 0⟩

/-- The stored race of the C1 witness for part (a): one persisted result. -/
def c1race : RaceRec :=
  ⟨0, 7, 100, Discipline.SL,
   [⟨some 1, none, some 42, 7, none, none, none, some ⟨4595, 2⟩, some ⟨0, 0⟩, none⟩]⟩

/-- The store of the C1 witness for part (a). -/
def c1st : DbState := ⟨[c1race], [42], 1⟩

/-- The header of the C1 witness. -/
def c1info : HeaderInfo := ⟨7, some 100, some Discipline.SL⟩

/-- A result row whose athlete exists in the C1 witness store. -/
def c1row : RaceRow :=
  ⟨some 1, none, some 42, 7, none, none, none, some ⟨4595, 2⟩, some ⟨0, 0⟩, none⟩

/-- First row of the C2 counterexample batch (athlete 42). -/
def c2rowA : RaceRow :=
  ⟨some 1, none, some 42, 7, none, none, none, some ⟨4595, 2⟩, none, none⟩

/-- Second row of the C2 counterexample batch (athlete 43). -/
def c2rowB : RaceRow :=
  ⟨some 2, none, some 43, 7, none, none, none, some ⟨4600, 2⟩, none, none⟩

/-- Third row of the C2 counterexample batch (athlete 44). -/
def c2rowC : RaceRow :=
  ⟨some 3, none, some 44, 7, none, none, none, some ⟨4700, 2⟩, none, none⟩

/-- The race of the C2 counterexample, with no persisted results yet. -/
def c2race : RaceRec := ⟨0, 7, 100, Discipline.SL, []⟩

/-- The store of the C2 counterexample: the race and all three athletes. -/
def c2st : DbState := ⟨[c2race], [42, 43, 44], 1⟩

/-- The per-iteration exception oracle of the C2 counterexample: the caught
exception strikes at the second result. -/
def c2errO : Nat → Bool := fun i => i == 1

/-! ## Helper lemmas -/

theorem starters_foldl (l : List RaceRow) (acc : Nat) :
    l.foldl (fun s r => if r.result == some "DNS1".toList then s - 1 else s) acc
      = acc - (l.filter (fun r => r.result == some "DNS1".toList)).length := by
  induction l generalizing acc with
  | nil => simp
  | cons r rest ih =>
    simp only [List.foldl_cons, List.filter_cons]
    by_cases h : (r.result == some "DNS1".toList) = true
    · rw [if_pos h, if_pos h, ih]
      simp only [List.length_cons]
      omega
    · rw [if_neg h, if_neg h, ih]

theorem calculate_total_starters_eq (l : List RaceRow) :
    calculate_total_starters l
      = l.length - (l.filter (fun r => r.result == some "DNS1".toList)).length := by
  unfold calculate_total_starters
  exact starters_foldl l l.length

theorem mkRaceRow_result (row : RowHtml) (raceId : Nat) (status : Option Str) :
    (mkRaceRow row raceId status).result = status := rfl

theorem parse_row_result (row : RowHtml) (raceId : Nat) (status : Option Str)
    (r : RaceRow) (h : parse_fis_table_row row raceId status = some r) :
    r.result = status := by
  unfold parse_fis_table_row at h
  by_cases h1 : (!row.hasContainer) = true
  · rw [if_pos h1] at h
    exact Option.noConfusion h
  · rw [if_neg h1] at h
    by_cases h2 : (!row.hasInnerRow) = true
    · rw [if_pos h2] at h
      exact Option.noConfusion h
    · rw [if_neg h2] at h
      cases h
      exact mkRaceRow_result row raceId status

theorem fin_filter_dns1_nil (rows : List RowHtml) (raceId : Nat) :
    (rows.filterMap (fun r => parse_fis_table_row r raceId none)).filter
      (fun r => r.result == some "DNS1".toList) = [] := by
  rw [List.filter_eq_nil_iff]
  intro a ha
  obtain ⟨row, _, hparse⟩ := List.mem_filterMap.mp ha
  have hres := parse_row_result row raceId none a hparse
  simp [hres]

theorem find?_map_key_preserved {α : Type} (p : α → Bool) (f : α → α)
    (hf : ∀ x, p (f x) = p x) (l : List α) :
    (l.map f).find? p = (l.find? p).map f := by
  rw [List.find?_map]
  have : p ∘ f = p := funext hf
  rw [this]

theorem save_loop_no_err (athl : List Nat) (rows : List RaceRow) :
    ∀ (i : Nat) (pending : List RaceRow) (saved : Nat),
      (save_loop athl (fun _ => false) rows i pending saved).1.length + saved
        = (save_loop athl (fun _ => false) rows i pending saved).2 + pending.length := by
  induction rows with
  | nil => intro i pending saved; simp [save_loop]; omega
  | cons r rest ih =>
    intro i pending saved
    simp only [save_loop]
    cases hr : r.athlete_fis_db_id with
    | none =>
      simpa using ih (i + 1) pending saved
    | some a =>
      by_cases ha : athl.contains a = true
      · simp only [ha, if_true, Bool.false_eq_true, if_false]
        have := ih (i + 1) (pending ++ [r]) (saved + 1)
        simp only [List.length_append, List.length_cons, List.length_nil] at this ⊢
        omega
      · simp only [ha, Bool.false_eq_true, if_false]
        simpa using ih (i + 1) pending saved

theorem searchKeyNat_none_iff (key : Str) (l : Str) :
    searchKeyNat key l = none ↔ hasKeyDigitSub key l = false := by
  induction l with
  | nil => simp [searchKeyNat, hasKeyDigitSub]
  | cons c rest ih =>
    by_cases hl : leadsWith key (c :: rest) = true
    · by_cases hd : ((((c :: rest).drop key.length).takeWhile Char.isDigit).isEmpty) = true
      · simp [searchKeyNat, hasKeyDigitSub, hl, hd, ih]
      · simp [searchKeyNat, hasKeyDigitSub, hl, hd]
    · simp [searchKeyNat, hasKeyDigitSub, hl, ih]

/-! ## Claim theorems -/

/-- C2, counterexample: the claim says the store is never left holding a
proper non-empty subset of the batch's `RaceResult` rows for the race, but
the caught per-result exception handler (`except ...: self.session.rollback()`
inside the loop) rolls back the rows added so far while the loop continues:
with the batch `[A, B, C]` (all athletes known) and an exception at the
second iteration, the final commit succeeds and the race is left holding
exactly `[C]` — non-empty, and missing `A` from the batch.  (The returned
count, 2, even exceeds the one row persisted, since `saved_count` is not
reset by the mid-loop rollback.) -/
theorem save_race_results_partial_subset_counterexample :
    (save_race_results c2st c2race [c2rowA, c2rowB, c2rowC] c2errO true).1 = 2 ∧
    ((save_race_results c2st c2race [c2rowA, c2rowB, c2rowC] c2errO true).2).races.map
        RaceRec.results = [[c2rowC]] ∧
    c2rowC ∈ [c2rowA, c2rowB, c2rowC] ∧
    c2rowA ∈ [c2rowA, c2rowB, c2rowC] ∧
    c2rowA ∉ ([c2rowC] : List RaceRow) ∧
    ([c2rowC] : List RaceRow) ≠ [] := by
  refine ⟨by decide, by decide, by decide, by decide, by decide, by decide⟩

/-- C2, amended: at its transaction boundary `_save_race_results` is
all-or-nothing: whenever the final commit fails, the rollback leaves the
store exactly as it was — none of the batch's rows persist for the race —
and `0` is returned.  The unconditional "never a proper non-empty subset"
reading fails on the caught per-result exception path (see the
counterexample); the documented per-row skip of results whose athlete is
unknown also happens before the commit and is not a transaction failure. -/
theorem save_race_results_commit_failure_rolls_back_everything
    (st : DbState) (race : RaceRec) (results : List RaceRow) (errO : Nat → Bool) :
    save_race_results st race results errO false = (0, st) := by
  unfold save_race_results
  split_ifs with h1 h2
  · rfl
  · exact h2.elim
  · rfl

/-- C6: the non-finisher status classifier agrees, on every heading text,
with the claim's description (lowercase; run index 2 on `2nd run`, 1 on
`1st run`, none otherwise — on a heading carrying both phrases the source
resolves to 2 and the claim fixes no priority, so the spec reading follows
the source; outcome keyword → DSQ/DNF/DNS/DNQ/NPS suffixed by the run index;
`none` with no recognized keyword), and `Disqualified 2nd Run` classifies as
`DSQ2`. -/
theorem run_suffix_eq (u : Str) : runSuffix u = runIndexSuffix (runIndexSpec u) := by
  unfold runSuffix runIndexSpec runIndexSuffix
  split_ifs <;> rfl

theorem get_result_status_matches_spec :
    (∀ t : Str, get_result_status t = spec_result_status t) ∧
    get_result_status "Disqualified 2nd Run".toList = some "DSQ2".toList := by
  constructor
  · intro t
    unfold get_result_status spec_result_status outcomeCodeSpec
    simp only [← run_suffix_eq]
    split_ifs <;> rfl
  · decide

theorem parse_time_none_of_not_accepted :
    ∀ s : Str, timeAccepted s = false → parse_time s = none := by
  intro s h
  unfold parse_time
  unfold timeAccepted at h
  by_cases h0 : (s.isEmpty || s == ['-']) = true
  · rw [if_pos h0]
  · rw [if_neg h0]
    have h0' := h0
    simp only [Bool.or_eq_true, not_or, Bool.not_eq_true] at h0'
    obtain ⟨he, hd⟩ := h0'
    rw [he] at h
    simp only [bne, hd, Bool.not_false, Bool.true_and] at h
    by_cases hc : s.contains ':' = true
    · rw [if_pos hc]
      rw [if_pos hc] at h
      cases hsp : s.splitOn ':' with
      | nil => rfl
      | cons a tl =>
        cases tl with
        | nil => rfl
        | cons b tl2 =>
          cases tl2 with
          | nil =>
            rw [hsp] at h
            simp only [two_piece_ok] at h
            simp only [two_piece]
            cases hpa : pyFloat? a with
            | none => rfl
            | some x =>
              cases hpb : pyFloat? b with
              | none => rfl
              | some y =>
                rw [hpa, hpb] at h
                simp at h
          | cons c tl3 => rfl
    · rw [if_neg hc]
      rw [if_neg hc] at h
      cases hp : pyFloat? s with
      | none => rfl
      | some x => rw [hp] at h; simp at h

/-- C7, counterexample: the claim says every string that is not of the form
`M:SS.ss` or `SS.ss` parses to null, but `_parse_time` delegates to Python
`float`, which accepts (for example) the exponent form `1e2` — it parses to
100.0 though it has neither claimed shape. -/
theorem parse_time_claim_counterexample :
    parse_time "1e2".toList = some ⟨100, 0⟩ ∧
    (Decimal.mk 100 0).toRat = 100 ∧
    claimTimeForm "1e2".toList = false := by
  refine ⟨by decide, ?_, by decide⟩
  simp [Decimal.toRat]

/-- C7, amended: `_parse_time` is total and never raises; `"1:32.72"` parses
to 92.72 seconds, `"45.95"` to 45.95, `"-"` and `""` to null, and any string
whose pieces Python's `float` does not accept (after the optional single
colon split) parses to null — but strings `float` accepts beyond the
`M:SS.ss`/`SS.ss` shapes (integers, exponent forms, signed or padded
numbers) parse to their numeric value rather than null. -/
theorem parse_time_total_amended :
    parse_time "1:32.72".toList = some ⟨9272, 2⟩ ∧
    (Decimal.mk 9272 2).toRat = 92.72 ∧
    parse_time "45.95".toList = some ⟨4595, 2⟩ ∧
    (Decimal.mk 4595 2).toRat = 45.95 ∧
    parse_time "-".toList = none ∧
    parse_time "".toList = none ∧
    (∀ s : Str, timeAccepted s = false → parse_time s = none) := by
  refine ⟨by decide, ?_, by decide, ?_, by decide, by decide,
          parse_time_none_of_not_accepted⟩
  · rw [show (92.72 : ℚ) = 9272 / 100 by norm_num]
    simp [Decimal.toRat]
    norm_num
  · rw [show (45.95 : ℚ) = 4595 / 100 by norm_num]
    simp [Decimal.toRat]
    norm_num

/-- C7 witness: the amended theorem applied at the concrete garbage input
`"abc"`. -/
theorem parse_time_total_amended_witness :
    timeAccepted "abc".toList = false ∧ parse_time "abc".toList = none :=
  ⟨by decide, parse_time_total_amended.2.2.2.2.2.2 "abc".toList (by decide)⟩

/-- C8: gender and discipline are parsed jointly from the header phrase:
`Men's Giant Slalom` yields (Male, GS), `Women's Slalom` yields (Female, SL);
the normalized discipline text is looked up in the fixed table accepting both
2-letter codes and full names, and a `Training` suffix is stripped before the
lookup, so `Downhill Training` resolves to DH. -/
theorem parse_header_kind_examples :
    parse_header_kind (mensStr ++ " Giant Slalom".toList)
      = (some Gender.M, some Discipline.GS) ∧
    parse_header_kind (womensStr ++ " Slalom".toList)
      = (some Gender.F, some Discipline.SL) ∧
    parse_discipline "Downhill Training".toList = some Discipline.DH ∧
    parse_discipline "Giant Slalom Training".toList = some Discipline.GS ∧
    parse_discipline "SL".toList = some Discipline.SL ∧
    parse_discipline "Slalom".toList = some Discipline.SL ∧
    parse_discipline "GS".toList = some Discipline.GS ∧
    parse_discipline "Giant Slalom".toList = some Discipline.GS ∧
    parse_discipline "SG".toList = some Discipline.SG ∧
    parse_discipline "Super-G".toList = some Discipline.SG ∧
    parse_discipline "Super G".toList = some Discipline.SG ∧
    parse_discipline "DH".toList = some Discipline.DH ∧
    parse_discipline "Downhill".toList = some Discipline.DH ∧
    parse_discipline "AC".toList = some Discipline.AC ∧
    parse_discipline "Alpine Combined".toList = some Discipline.AC := by
  decide

/-- C10, counterexample: the claim says an href lacking a `raceid` query
parameter maps to null, but the source matches the regex `raceid=(\d+)`
anywhere in the string: `event.html?traceid=99` has no parameter named
`raceid`, yet parses to 99. -/
theorem parse_race_id_counterexample :
    parse_race_id_from_link "event.html?traceid=99".toList = some 99 ∧
    hasRaceidParam "event.html?traceid=99".toList = false := by
  decide

/-- C10, amended: `_parse_race_id_from_link` returns null exactly when the
href contains no substring `raceid=` followed by a digit (a parameter whose
name merely ends in `raceid`, such as `traceid`, also matches);
`find_races_by_event` maps it over every anchor href, so its list can
contain null entries despite the declared element type `int` — e.g. a
single hrefless anchor yields `[null]`. -/
theorem parse_race_id_amended :
    (∀ l : Str, parse_race_id_from_link l = none ↔
        hasKeyDigitSub "raceid=".toList l = false) ∧
    (∀ hrefs : List Str, find_races_by_event hrefs = hrefs.map parse_race_id_from_link) ∧
    find_races_by_event ["event.html".toList] = [none] :=
  ⟨fun l => searchKeyNat_none_iff "raceid=".toList l, fun _ => rfl, by decide⟩

/-- C10 witness: the amended theorem applied at a concrete href without a
`raceid=` digit substring. -/
theorem parse_race_id_amended_witness :
    parse_race_id_from_link "foo.html".toList = none :=
  (parse_race_id_amended.1 "foo.html".toList).mpr (by decide)

/-- C5, amended: `_ensure_points_list_for_date` (i) returns a store hit with
zero catalog requests and zero ingestion calls; (ii) with no store hit and no
covering catalog entry returns absent with zero ingestion calls; (iii) with
covering entries triggers exactly one ingestion call, of the first covering
entry — and then returns the result of re-querying the store only when the
ingestion reports success; on a reported failure it returns absent directly,
without re-querying. -/
theorem ensure_points_list_amended :
    ∀ (store : List PLRec) (catalog : List CatEntry)
      (ingest : CatEntry → Bool × List PLRec) (d : Int),
      (∀ pl, get_points_list_for_date store d = some pl →
        ensure_points_list_for_date store catalog ingest d = ⟨some pl, 1, 0, 0, none⟩) ∧
      (get_points_list_for_date store d = none →
        catalog.filter (fun e => coversDate e d) = [] →
        ensure_points_list_for_date store catalog ingest d = ⟨none, 1, 1, 0, none⟩) ∧
      (∀ e rest, get_points_list_for_date store d = none →
        catalog.filter (fun e => coversDate e d) = e :: rest →
        (ensure_points_list_for_date store catalog ingest d).ingestCalls = 1 ∧
        (ensure_points_list_for_date store catalog ingest d).ingestedEntry = some e ∧
        ((ingest e).1 = true →
          (ensure_points_list_for_date store catalog ingest d).result =
            get_points_list_for_date (ingest e).2 d) ∧
        ((ingest e).1 = false →
          (ensure_points_list_for_date store catalog ingest d).result = none)) := by
  intro store catalog ingest d
  refine ⟨?_, ?_, ?_⟩
  · intro pl h
    unfold ensure_points_list_for_date
    rw [h]
  · intro h1 h2
    unfold ensure_points_list_for_date
    rw [h1, h2]
    rfl
  · intro e rest h1 h2
    have hred : ensure_points_list_for_date store catalog ingest d
        = ensure_ingested d e (ingest e) := by
      unfold ensure_points_list_for_date
      rw [h1, h2]
      rfl
    rw [hred]
    cases hie : ingest e with
    | mk ok s2 =>
      cases ok
      · exact ⟨rfl, rfl, fun htrue => by simp at htrue, fun _ => rfl⟩
      · exact ⟨rfl, rfl, fun _ => rfl, fun hfalse => by simp at hfalse⟩

/-- C5, counterexample: the claim says that with a covering catalog entry the
resolver "returns the result of re-querying the store"; here ingestion is
triggered exactly once but reports failure, the function returns absent
without re-querying — yet re-querying the store it was left with would have
found a list. -/
theorem ensure_points_list_counterexample :
    (ensure_points_list_for_date [] c5catalog c5ingest 5).ingestCalls = 1 ∧
    (ensure_points_list_for_date [] c5catalog c5ingest 5).result = none ∧
    get_points_list_for_date (c5ingest ⟨some 0, some 10, 1⟩).2 5 = some ⟨0, 10, 5⟩ := by
  decide

/-- C5 witness: the amended theorem applied at concrete stores and catalogs
exercising all three branches. -/
theorem ensure_points_list_amended_witness :
    ensure_points_list_for_date [⟨0, 10, 9⟩] [] (fun _ => (true, [])) 5
      = ⟨some ⟨0, 10, 9⟩, 1, 0, 0, none⟩ ∧
    ensure_points_list_for_date [] [] (fun _ => (true, [])) 5 = ⟨none, 1, 1, 0, none⟩ ∧
    (ensure_points_list_for_date [] c5catalog c5ingest 5).ingestedEntry
      = some ⟨some 0, some 10, 1⟩ :=
  ⟨(ensure_points_list_amended [⟨0, 10, 9⟩] [] (fun _ => (true, [])) 5).1 ⟨0, 10, 9⟩ (by decide),
   (ensure_points_list_amended [] [] (fun _ => (true, [])) 5).2.1 (by decide) (by decide),
   ((ensure_points_list_amended [] c5catalog c5ingest 5).2.2 ⟨some 0, some 10, 1⟩ []
      (by decide) (by decide)).2.1⟩

theorem assemble_results_cases (raceId : Nat) (body : PageBody) (all : List RaceRow)
    (tf ts : Option Nat) (w p : Option Decimal)
    (h : assemble_results raceId body = some (all, tf, ts, w, p)) :
    (all = [] ∧ tf = none ∧ ts = none) ∨
    (∃ nonFin,
      get_non_finishers body.sections raceId = some nonFin ∧
      all = (body.finisherRows.filterMap (fun r => parse_fis_table_row r raceId none)) ++ nonFin ∧
      tf = some (body.finisherRows.filterMap (fun r => parse_fis_table_row r raceId none)).length ∧
      ts = some (calculate_total_starters all) ∧
      (body.finisherRows.filterMap (fun r => parse_fis_table_row r raceId none)) ≠ []) := by
  unfold assemble_results at h
  cases hrows : body.finisherRows with
  | nil =>
    rw [hrows] at h
    simp only [assemble_rows] at h
    cases Option.some.inj h
    exact Or.inl ⟨rfl, rfl, rfl⟩
  | cons r0 rtail =>
    rw [hrows] at h
    simp only [assemble_rows] at h
    cases hfin : (r0 :: rtail).filterMap (fun r => parse_fis_table_row r raceId none) with
    | nil =>
      rw [hfin] at h
      simp only [assemble_from] at h
      cases Option.some.inj h
      exact Or.inl ⟨rfl, rfl, rfl⟩
    | cons f0 ftail =>
      rw [hfin] at h
      cases hw : parse_fis_table_row r0 raceId none with
      | none =>
        rw [hw] at h
        simp only [assemble_from] at h
        exact Option.noConfusion h
      | some wrow =>
        rw [hw] at h
        simp only [assemble_from] at h
        cases hnf : get_non_finishers body.sections raceId with
        | none =>
          rw [hnf] at h
          exact Option.noConfusion h
        | some nonFin =>
          rw [hnf] at h
          cases Option.some.inj h
          exact Or.inr ⟨nonFin, rfl, rfl, rfl, rfl, by simp⟩

theorem scrape_core_stats (info : HeaderInfo) (body : PageBody) (store : List PLRec)
    (catalog : List CatEntry) (ingest : CatEntry → Bool × List PLRec) (out : ScrapeOut)
    (h : scrape_core info (some body) store catalog ingest = some out)
    (hne : out.results ≠ []) :
    ∃ w p, assemble_results info.fis_db_id body
      = some (out.results, out.total_finishers, out.total_starters, w, p) := by
  unfold scrape_core at h
  by_cases hdisc : info.discipline.isNone = true
  · rw [if_pos hdisc] at h
    cases Option.some.inj h
    exact absurd rfl hne
  · rw [if_neg hdisc] at h
    replace h : scrape_page info store catalog ingest body info.race_date = some out := h
    cases hdt : info.race_date with
    | some d =>
      rw [hdt] at h
      simp only [scrape_page] at h
      unfold scrape_with_list at h
      by_cases hpl : (ensure_points_list_for_date store catalog ingest d).result.isNone = true
      · rw [if_pos hpl] at h
        cases Option.some.inj h
        exact absurd rfl hne
      · rw [if_neg hpl] at h
        cases ha : assemble_results info.fis_db_id body with
        | none => rw [ha] at h; exact Option.noConfusion h
        | some o =>
          rw [ha] at h
          obtain ⟨all, tf, ts, w, p⟩ := o
          cases Option.some.inj h
          exact ⟨w, p, rfl⟩
    | none =>
      rw [hdt] at h
      simp only [scrape_page] at h
      cases ha : assemble_results info.fis_db_id body with
      | none => rw [ha] at h; exact Option.noConfusion h
      | some o =>
        rw [ha] at h
        obtain ⟨all, tf, ts, w, p⟩ := o
        cases Option.some.inj h
        exact ⟨w, p, rfl⟩

/-- C3: on every completed scrape with at least one parsed result row,
`total_starters` is the number of parsed rows (finisher rows plus
non-finisher rows, i.e. all of `results`) minus the number of rows whose
classified status is exactly `DNS1`; no other status is subtracted. -/
theorem scrape_total_starters_dns1 :
    ∀ (info : HeaderInfo) (page : Option PageBody) (store : List PLRec)
      (catalog : List CatEntry) (ingest : CatEntry → Bool × List PLRec) (out : ScrapeOut),
      scrape_core info page store catalog ingest = some out →
      out.results ≠ [] →
      out.total_starters
        = some (out.results.length
            - (out.results.filter (fun r => r.result == some "DNS1".toList)).length) := by
  intro info page store catalog ingest out h hne
  cases page with
  | none =>
    unfold scrape_core at h
    by_cases hdisc : info.discipline.isNone = true
    · rw [if_pos hdisc] at h
      cases Option.some.inj h
      exact absurd rfl hne
    · rw [if_neg hdisc] at h
      cases Option.some.inj h
      exact absurd rfl hne
  | some body =>
    obtain ⟨w, p, hassemble⟩ := scrape_core_stats info body store catalog ingest out h hne
    rcases assemble_results_cases info.fis_db_id body out.results out.total_finishers
        out.total_starters w p hassemble with ⟨hall, _, _⟩ | ⟨nonFin, _, _, _, hts, _⟩
    · exact absurd hall hne
    · rw [hts, calculate_total_starters_eq]

theorem scrape_core_stats_full (info : HeaderInfo) (body : PageBody) (store : List PLRec)
    (catalog : List CatEntry) (ingest : CatEntry → Bool × List PLRec) (out : ScrapeOut)
    (h : scrape_core info (some body) store catalog ingest = some out) :
    (out.results = [] ∧ out.total_finishers = none ∧ out.total_starters = none) ∨
    ∃ w p, assemble_results info.fis_db_id body
      = some (out.results, out.total_finishers, out.total_starters, w, p) := by
  unfold scrape_core at h
  by_cases hdisc : info.discipline.isNone = true
  · rw [if_pos hdisc] at h
    cases Option.some.inj h
    exact Or.inl ⟨rfl, rfl, rfl⟩
  · rw [if_neg hdisc] at h
    replace h : scrape_page info store catalog ingest body info.race_date = some out := h
    cases hdt : info.race_date with
    | some d =>
      rw [hdt] at h
      simp only [scrape_page] at h
      unfold scrape_with_list at h
      by_cases hpl : (ensure_points_list_for_date store catalog ingest d).result.isNone = true
      · rw [if_pos hpl] at h
        cases Option.some.inj h
        exact Or.inl ⟨rfl, rfl, rfl⟩
      · rw [if_neg hpl] at h
        cases ha : assemble_results info.fis_db_id body with
        | none => rw [ha] at h; exact Option.noConfusion h
        | some o =>
          rw [ha] at h
          obtain ⟨all, tf, ts, w, p⟩ := o
          cases Option.some.inj h
          exact Or.inr ⟨w, p, rfl⟩
    | none =>
      rw [hdt] at h
      simp only [scrape_page] at h
      cases ha : assemble_results info.fis_db_id body with
      | none => rw [ha] at h; exact Option.noConfusion h
      | some o =>
        rw [ha] at h
        obtain ⟨all, tf, ts, w, p⟩ := o
        cases Option.some.inj h
        exact Or.inr ⟨w, p, rfl⟩

/-- C3 witness: the theorem applied to a concrete page with one finisher and
one DNS1 row — two parsed rows, one subtracted, `total_starters = 1`. -/
theorem scrape_total_starters_dns1_witness :
    c3out.total_starters
      = some (c3out.results.length
          - (c3out.results.filter (fun r => r.result == some "DNS1".toList)).length) :=
  scrape_total_starters_dns1 ⟨9, none, some Discipline.SL⟩ (some c3body) [] []
    (fun _ => (false, [])) c3out (by decide) (by decide)

/-- C4, counterexample: the claim says `total_finishers` equals the number of
parsed rows with non-null total time, but the source sets it to the number of
parsed finisher-table rows: a finisher-table row whose time slot holds `-`
parses with a null total time yet still counts — `total_finishers = 1` while
the non-null-time count is 0. -/
theorem scrape_total_finishers_counterexample :
    scrape_core ⟨7, none, some Discipline.SL⟩ (some ⟨[c4row], []⟩) [] []
        (fun _ => (false, [])) = some c4out ∧
    c4out.total_finishers = some 1 ∧
    (c4out.results.filter (fun r => r.racer_time.isSome)).length = 0 ∧
    c4out.total_finishers
      ≠ some ((c4out.results.filter (fun r => r.racer_time.isSome)).length) := by
  refine ⟨by decide, by decide, by decide, by decide⟩

/-- C4, amended: on every completed scrape, `total_finishers` (when set) is
the number of parsed finisher-table rows — which equals the count of rows
with non-null total time only when every parsed finisher row carries a
time — and `total_starters ≥ total_finishers` always holds. -/
theorem scrape_total_finishers_amended :
    ∀ (info : HeaderInfo) (body : PageBody) (store : List PLRec)
      (catalog : List CatEntry) (ingest : CatEntry → Bool × List PLRec) (out : ScrapeOut),
      scrape_core info (some body) store catalog ingest = some out →
      (∀ f, out.total_finishers = some f →
        f = (body.finisherRows.filterMap
              (fun r => parse_fis_table_row r info.fis_db_id none)).length) ∧
      (∀ s f, out.total_starters = some s → out.total_finishers = some f → f ≤ s) := by
  intro info body store catalog ingest out h
  rcases scrape_core_stats_full info body store catalog ingest out h with
    ⟨_, htf, _⟩ | ⟨w, p, hassemble⟩
  · refine ⟨?_, ?_⟩
    · intro f hf; rw [htf] at hf; exact Option.noConfusion hf
    · intro s f _ hf; rw [htf] at hf; exact Option.noConfusion hf
  · rcases assemble_results_cases info.fis_db_id body out.results out.total_finishers
        out.total_starters w p hassemble with ⟨_, htf, _⟩ | ⟨nonFin, hnf, hall, htf, hts, hfinne⟩
    · refine ⟨?_, ?_⟩
      · intro f hf; rw [htf] at hf; exact Option.noConfusion hf
      · intro s f _ hf; rw [htf] at hf; exact Option.noConfusion hf
    · refine ⟨?_, ?_⟩
      · intro f hf
        rw [htf] at hf
        exact (Option.some.inj hf).symm
      · intro s f hs hf
        rw [htf] at hf
        rw [hts] at hs
        rw [← Option.some.inj hf, ← Option.some.inj hs]
        rw [calculate_total_starters_eq, hall]
        rw [List.filter_append, List.length_append, List.length_append]
        rw [fin_filter_dns1_nil]
        simp only [List.length_nil, List.nil_append]
        have hle := List.length_filter_le (fun r => r.result == some "DNS1".toList) nonFin
        omega

/-- C4 witness: the amended theorem applied at a concrete one-finisher page. -/
theorem scrape_total_finishers_amended_witness :
    (1 : Nat) = (c4wbody.finisherRows.filterMap
        (fun r => parse_fis_table_row r 8 none)).length ∧ (1 : Nat) ≤ 1 :=
  ⟨(scrape_total_finishers_amended ⟨8, none, some Discipline.SL⟩ c4wbody [] []
      (fun _ => (false, [])) c4wout (by decide)).1 1 (by decide),
   (scrape_total_finishers_amended ⟨8, none, some Discipline.SL⟩ c4wbody [] []
      (fun _ => (false, [])) c4wout (by decide)).2 1 1 (by decide) (by decide)⟩

/-- C9: when the parsed header carries no race date (and the discipline did
resolve, so the scrape proceeds), `scrape_race_results` performs no
points-list dependency activity at all — zero store queries, zero catalog
requests, zero ingestion calls — and still parses the page's rows: its
results are exactly the row/statistics phase's output.  The dependency
resolver is therefore not invoked for every race. -/
theorem scrape_no_date_skips_points_check :
    ∀ (info : HeaderInfo) (body : PageBody) (store : List PLRec)
      (catalog : List CatEntry) (ingest : CatEntry → Bool × List PLRec)
      (out : ScrapeOut) (disc : Discipline),
      info.race_date = none → info.discipline = some disc →
      scrape_core info (some body) store catalog ingest = some out →
      out.storeQueries = 0 ∧ out.catalogRequests = 0 ∧ out.ingestCalls = 0 ∧
      ∃ tf ts w p, assemble_results info.fis_db_id body
        = some (out.results, tf, ts, w, p) := by
  intro info body store catalog ingest out disc hdt hdisc h
  unfold scrape_core at h
  rw [if_neg (by simp [hdisc])] at h
  replace h : scrape_page info store catalog ingest body info.race_date = some out := h
  rw [hdt] at h
  simp only [scrape_page] at h
  cases ha : assemble_results info.fis_db_id body with
  | none => rw [ha] at h; exact Option.noConfusion h
  | some o =>
    rw [ha] at h
    obtain ⟨all, tf, ts, w, p⟩ := o
    cases Option.some.inj h
    exact ⟨rfl, rfl, rfl, tf, ts, w, p, rfl⟩

/-- C9 witness: the theorem applied at a concrete dateless header and
one-row page. -/
theorem scrape_no_date_skips_points_check_witness :
    c9out.storeQueries = 0 ∧ c9out.catalogRequests = 0 ∧ c9out.ingestCalls = 0 ∧
    ∃ tf ts w p, assemble_results 5 c9body = some (c9out.results, tf, ts, w, p) :=
  scrape_no_date_skips_points_check ⟨5, none, some Discipline.GS⟩ c9body [] []
    (fun _ => (false, [])) c9out Discipline.GS rfl rfl (by decide)

theorem get_or_create_race_eq_found (st : DbState) (info : HeaderInfo) (createOk : Bool)
    (d : Int) (disc : Discipline) (r : RaceRec)
    (hd : info.race_date = some d) (hdc : info.discipline = some disc)
    (hid : (info.fis_db_id == 0) = false)
    (hfind : st.races.find? (raceKey info.fis_db_id d disc) = some r) :
    get_or_create_race st info createOk = (some r, st) := by
  unfold get_or_create_race
  rw [hd, hdc]
  simp only [goc_fields]
  rw [hid, hfind]
  rfl

theorem get_or_create_race_eq_create (st : DbState) (info : HeaderInfo)
    (d : Int) (disc : Discipline)
    (hd : info.race_date = some d) (hdc : info.discipline = some disc)
    (hid : (info.fis_db_id == 0) = false)
    (hfind : st.races.find? (raceKey info.fis_db_id d disc) = none) :
    get_or_create_race st info true
      = (some ⟨st.nextId, info.fis_db_id, d, disc, []⟩,
         ⟨st.races ++ [⟨st.nextId, info.fis_db_id, d, disc, []⟩],
          st.athletes, st.nextId + 1⟩) := by
  unfold get_or_create_race
  rw [hd, hdc]
  simp only [goc_fields]
  rw [hid, hfind]
  rfl

theorem record_race_of_goc (st st1 : DbState) (info : HeaderInfo) (results : List RaceRow)
    (createOk : Bool) (errO : Nat → Bool) (commitOk : Bool) (r : RaceRec)
    (hgoc : get_or_create_race st info createOk = (some r, st1)) :
    record_race st info results createOk errO commitOk
      = if r.results.length > 0 then (0, st1)
        else if !results.isEmpty then save_race_results st1 r results errO commitOk
        else (0, st1) := by
  unfold record_race
  rw [hgoc]

theorem record_race_of_goc_none (st st1 : DbState) (info : HeaderInfo)
    (results : List RaceRow) (createOk : Bool) (errO : Nat → Bool) (commitOk : Bool)
    (hgoc : get_or_create_race st info createOk = (none, st1)) :
    record_race st info results createOk errO commitOk = (-1, st1) := by
  unfold record_race
  rw [hgoc]

theorem save_race_results_commit_eq (st : DbState) (race : RaceRec)
    (results : List RaceRow) (errO : Nat → Bool) (hne : results.isEmpty = false) :
    save_race_results st race results errO true
      = (((save_loop st.athletes errO results 0 [] 0).2 : Int),
         ⟨st.races.map
            (fun x =>
              if x.rid == race.rid then
                {x with results := x.results ++ (save_loop st.athletes errO results 0 [] 0).1}
              else x),
          st.athletes, st.nextId⟩) := by
  unfold save_race_results
  rw [hne]
  rfl

theorem upd_preserves_raceKey (fid : Nat) (d : Int) (disc : Discipline) (rid : Nat)
    (pend : List RaceRow) :
    ∀ x : RaceRec,
      raceKey fid d disc
        (if x.rid == rid then {x with results := x.results ++ pend} else x)
      = raceKey fid d disc x := by
  intro x
  by_cases hx : (x.rid == rid) = true
  · rw [if_pos hx]
    rfl
  · rw [if_neg hx]

theorem record_race_already_recorded (st : DbState) (info : HeaderInfo)
    (results : List RaceRow) (createOk commitOk : Bool) (errO : Nat → Bool)
    (d : Int) (disc : Discipline) (r : RaceRec)
    (hd : info.race_date = some d) (hdc : info.discipline = some disc)
    (hid : (info.fis_db_id == 0) = false)
    (hfind : st.races.find? (raceKey info.fis_db_id d disc) = some r)
    (hres : 0 < r.results.length) :
    record_race st info results createOk errO commitOk = (0, st) := by
  rw [record_race_of_goc st st info results createOk errO commitOk r
      (get_or_create_race_eq_found st info createOk d disc r hd hdc hid hfind)]
  rw [if_pos hres]

theorem second_call_after_save (st1 : DbState) (info : HeaderInfo)
    (results : List RaceRow) (createOk2 commitOk2 : Bool) (errO2 : Nat → Bool)
    (d : Int) (disc : Discipline) (r : RaceRec)
    (hd : info.race_date = some d) (hdc : info.discipline = some disc)
    (hid : (info.fis_db_id == 0) = false)
    (hfind1 : st1.races.find? (raceKey info.fis_db_id d disc) = some r)
    (hpen : 1 ≤ (save_loop st1.athletes (fun _ => false) results 0 [] 0).1.length) :
    record_race
      ⟨st1.races.map
         (fun x =>
           if x.rid == r.rid then
             {x with results := x.results ++ (save_loop st1.athletes (fun _ => false) results 0 [] 0).1}
           else x),
       st1.athletes, st1.nextId⟩
      info results createOk2 errO2 commitOk2
      = (0,
         ⟨st1.races.map
            (fun x =>
              if x.rid == r.rid then
                {x with results := x.results ++ (save_loop st1.athletes (fun _ => false) results 0 [] 0).1}
              else x),
          st1.athletes, st1.nextId⟩) := by
  have hfind2 :
      (st1.races.map
        (fun x =>
          if x.rid == r.rid then
            {x with results := x.results ++ (save_loop st1.athletes (fun _ => false) results 0 [] 0).1}
          else x)).find? (raceKey info.fis_db_id d disc)
      = some (if r.rid == r.rid then
          {r with results := r.results ++ (save_loop st1.athletes (fun _ => false) results 0 [] 0).1}
        else r) := by
    rw [find?_map_key_preserved _ _
        (upd_preserves_raceKey info.fis_db_id d disc r.rid
          (save_loop st1.athletes (fun _ => false) results 0 [] 0).1), hfind1]
    rfl
  refine record_race_already_recorded _ info results createOk2 commitOk2 errO2 d disc _
    hd hdc hid hfind2 ?_
  rw [if_pos (beq_self_eq_true r.rid)]
  simp only [List.length_append]
  omega

theorem save_loop_pending_eq_saved (athl : List Nat) (results : List RaceRow) :
    (save_loop athl (fun _ => false) results 0 [] 0).1.length
      = (save_loop athl (fun _ => false) results 0 [] 0).2 := by
  have hh := save_loop_no_err athl results 0 [] 0
  simpa using hh

/-- C1: (a) for every race that already has at least one persisted result,
`record_race` returns 0 and leaves the store untouched — no new `RaceResult`
row is persisted, both when the persisted count equals `len(results)` (the
"already ingested" no-op) and when the counts differ (the conflict is only
logged, never auto-reconciled; `results` here is universally quantified so
both sub-cases are covered); (b) hence on a normal run (no per-row exception,
commit succeeding) a first `record_race` that saves `N ≥ 1` results is
followed by a second call on the same race that returns 0 and changes
nothing, leaving no duplicate rows. -/
theorem record_race_idempotent :
    (∀ (st : DbState) (info : HeaderInfo) (results : List RaceRow)
       (createOk commitOk : Bool) (errO : Nat → Bool)
       (d : Int) (disc : Discipline) (r : RaceRec),
       info.race_date = some d → info.discipline = some disc →
       (info.fis_db_id == 0) = false →
       st.races.find? (raceKey info.fis_db_id d disc) = some r →
       0 < r.results.length →
       record_race st info results createOk errO commitOk = (0, st)) ∧
    (∀ (st : DbState) (info : HeaderInfo) (results : List RaceRow)
       (createOk createOk2 commitOk2 : Bool) (errO2 : Nat → Bool),
       1 ≤ (record_race st info results createOk (fun _ => false) true).1 →
       record_race (record_race st info results createOk (fun _ => false) true).2
           info results createOk2 errO2 commitOk2
         = (0, (record_race st info results createOk (fun _ => false) true).2)) := by
  constructor
  · intro st info results createOk commitOk errO d disc r hd hdc hid hfind hres
    exact record_race_already_recorded st info results createOk commitOk errO
      d disc r hd hdc hid hfind hres
  · intro st info results createOk createOk2 commitOk2 errO2 h
    cases hd : info.race_date with
    | none =>
      rw [record_race_of_goc_none st st info results createOk (fun _ => false) true
          (by unfold get_or_create_race; rw [hd]; simp only [goc_fields])] at h
      simp at h
    | some d =>
      cases hdc : info.discipline with
      | none =>
        rw [record_race_of_goc_none st st info results createOk (fun _ => false) true
            (by unfold get_or_create_race; rw [hd, hdc]; simp only [goc_fields])] at h
        simp at h
      | some disc =>
        by_cases hid : (info.fis_db_id == 0) = true
        · rw [record_race_of_goc_none st st info results createOk (fun _ => false) true
              (by unfold get_or_create_race; rw [hd, hdc]; simp [goc_fields, hid])] at h
          simp at h
        · have hid' : (info.fis_db_id == 0) = false := by
            cases hb : (info.fis_db_id == 0) with
            | false => rfl
            | true => exact absurd hb hid
          cases hfind : st.races.find? (raceKey info.fis_db_id d disc) with
          | some r =>
            have hgoc : get_or_create_race st info createOk = (some r, st) :=
              get_or_create_race_eq_found st info createOk d disc r hd hdc hid' hfind
            rw [record_race_of_goc st st info results createOk (fun _ => false) true r hgoc] at h ⊢
            by_cases hlen : r.results.length > 0
            · rw [if_pos hlen] at h
              simp at h
            · rw [if_neg hlen] at h ⊢
              by_cases hre : results.isEmpty = true
              · rw [if_neg (by simp [hre])] at h
                simp at h
              · have hre' : results.isEmpty = false := by
                  cases hb : results.isEmpty with
                  | false => rfl
                  | true => exact absurd hb hre
                rw [if_pos (by simp [hre'])] at h ⊢
                rw [save_race_results_commit_eq st r results (fun _ => false) hre'] at h ⊢
                have h' : (1 : Int) ≤ ((save_loop st.athletes (fun _ => false) results 0 [] 0).2 : Int) := h
                have hsv : 1 ≤ (save_loop st.athletes (fun _ => false) results 0 [] 0).2 := by
                  exact_mod_cast h'
                have hpen : 1 ≤ (save_loop st.athletes (fun _ => false) results 0 [] 0).1.length := by
                  rw [save_loop_pending_eq_saved]
                  exact hsv
                exact second_call_after_save st info results createOk2 commitOk2 errO2
                  d disc r hd hdc hid' hfind hpen
          | none =>
            by_cases hcre : createOk = true
            · subst hcre
              have hgoc := get_or_create_race_eq_create st info d disc hd hdc hid' hfind
              rw [record_race_of_goc st _ info results true (fun _ => false) true _ hgoc] at h ⊢
              rw [if_neg (by simp)] at h ⊢
              by_cases hre : results.isEmpty = true
              · rw [if_neg (by simp [hre])] at h
                simp at h
              · have hre' : results.isEmpty = false := by
                  cases hb : results.isEmpty with
                  | false => rfl
                  | true => exact absurd hb hre
                rw [if_pos (by simp [hre'])] at h ⊢
                rw [save_race_results_commit_eq _ _ results (fun _ => false) hre'] at h ⊢
                have h' : (1 : Int) ≤ ((save_loop st.athletes (fun _ => false) results 0 [] 0).2 : Int) := h
                have hsv : 1 ≤ (save_loop st.athletes (fun _ => false) results 0 [] 0).2 := by
                  exact_mod_cast h'
                have hpen : 1 ≤ (save_loop st.athletes (fun _ => false) results 0 [] 0).1.length := by
                  rw [save_loop_pending_eq_saved]
                  exact hsv
                have hfind1 :
                    (st.races ++ [(⟨st.nextId, info.fis_db_id, d, disc, []⟩ : RaceRec)]).find?
                      (raceKey info.fis_db_id d disc)
                    = some ⟨st.nextId, info.fis_db_id, d, disc, []⟩ := by
                  rw [List.find?_append, hfind]
                  simp [raceKey]
                exact second_call_after_save
                  ⟨st.races ++ [⟨st.nextId, info.fis_db_id, d, disc, []⟩],
                   st.athletes, st.nextId + 1⟩
                  info results createOk2 commitOk2 errO2 d disc
                  ⟨st.nextId, info.fis_db_id, d, disc, []⟩ hd hdc hid' hfind1 hpen
            · have hcre' : createOk = false := by
                cases hb : createOk with
                | false => rfl
                | true => exact absurd hb hcre
              subst hcre'
              rw [record_race_of_goc_none st st info results false (fun _ => false) true
                  (by unfold get_or_create_race; rw [hd, hdc]; simp only [goc_fields];
                      rw [hid', hfind]; rfl)] at h
              simp at h

/-- C1 witness: part (a) applied at a store already holding one result (with
a differing incoming count, the conflict sub-case), and part (b) applied at
an empty store — the first call saves one result, the second returns 0 and
changes nothing. -/
theorem record_race_idempotent_witness :
    record_race c1st c1info [c1row, c1row] true (fun _ => false) true = (0, c1st) ∧
    record_race (record_race ⟨[], [42], 0⟩ c1info [c1row] true (fun _ => false) true).2
        c1info [c1row] true (fun _ => false) true
      = (0, (record_race ⟨[], [42], 0⟩ c1info [c1row] true (fun _ => false) true).2) :=
  ⟨record_race_idempotent.1 c1st c1info [c1row, c1row] true true (fun _ => false)
     100 Discipline.SL c1race (by decide) (by decide) (by decide) (by decide) (by decide),
   record_race_idempotent.2 ⟨[], [42], 0⟩ c1info [c1row] true true true (fun _ => false)
     (by decide)⟩

end FisScraper
